import Mathlib

/-!
Verification development for the stof-cli package distribution and
remote-execution layer.

The definitions below are a shallow embedding of the Rust sources
`src/add.rs`, `src/publish.rs`, `src/remote.rs` and `src/main.rs`.
Pure computations (URL construction, registry resolution, dependency
collection) are translated directly; the effectful operations are
translated into functions that, given oracles for the results of the
I/O they perform (manifest loading, HTTP responses, filesystem calls),
produce the ordered list of observable actions the Rust code performs
(HTTP requests issued, messages printed, recursive install calls made).
A `.unwrap()` on a fallible value in the Rust source is translated to a
`panicked` outcome of the `Res` type when the oracle says the value is
absent.  Concurrency in the publish fan-out is modelled by recording
each spawned task's actions grouped in spawn order; the properties
proved about the fan-out are insensitive to interleaving.
-/

namespace Stof

/-- `s.trim_start_matches("@")` from the Rust source: drops every
leading `@` character of the string. -/
def stripAt (s : String) : String :=
  String.mk (s.data.dropWhile fun c => c == '@')

/-- The Authorization header construction shared by `add.rs` and
`remote.rs`: a Basic-Auth header is built exactly when both a username
and a password are present (`username.is_some() && password.is_some()`). -/
def basicAuth (username password : Option String) : Option (String × String) :=
  match username, password with
  | some u, some p => some (u, p)
  | _, _ => none

/-- A registry object as consumed by the CLI: the `url` field looked up
inside the registry node (`SField::field(.., "registry.url", ..)`),
absent when the object carries no such field. -/
structure RegInfo where
  url : Option String
deriving DecidableEq

/-- The value of a field under the manifest's `root/registries` node:
either an object (a registry definition) or some other value, which the
scan in `add.rs` skips. -/
inductive RegFieldVal where
  | obj (r : RegInfo)
  | other
deriving DecidableEq

/-- One field under `root/registries`: its value together with whether
its attribute map contains the key `default`. -/
structure RegField where
  value : RegFieldVal
  hasDefault : Bool
deriving DecidableEq

/-- The part of a `pkg.stof` manifest consumed by `add_package`:
the fields under the `root/registries` node in declaration order,
keyed by field name; `none` when the node itself is absent. -/
structure AddManifest where
  registries : Option (List (String × RegField))
deriving DecidableEq

/-- The registry-typed entries of the `root/registries` field list,
paired with their `default` tag, in declaration order. -/
def objsOf (fields : List RegField) : List (RegInfo × Bool) :=
  fields.filterMap fun f =>
    match f.value with
    | .obj r => some (r, f.hasDefault)
    | .other => none

/-- The loop body of the default-registry scan in `add_package`
(src/add.rs lines 49-60): `reg` starts as `None`; an object field is
taken when `reg` is still `None`, and a later object field overrides it
when that field carries a `default` attribute. -/
def defaultRegistryScanAux : Option RegInfo → List RegField → Option RegInfo
  | reg, [] => reg
  | reg, ⟨.obj r, d⟩ :: rest =>
    match reg with
    | none => defaultRegistryScanAux (some r) rest
    | some r0 =>
      if d then defaultRegistryScanAux (some r) rest
      else defaultRegistryScanAux (some r0) rest
  | reg, ⟨.other, _⟩ :: rest => defaultRegistryScanAux reg rest

/-- The default-registry scan of `add_package`, applied to the fields of
the `root/registries` node in declaration order. -/
def defaultRegistryScan (fields : List RegField) : Option RegInfo :=
  defaultRegistryScanAux none fields

/-- Registry resolution in `add_package`: a named registry is looked up
as the field of that name under `root/registries` and used only when its
value is an object; with no name given, the default scan runs over the
node's fields (or fails when the node is absent). -/
def resolveRegistry (man : AddManifest) (registryName : Option String) : Option RegInfo :=
  match registryName with
  | some n =>
    match man.registries.bind fun l => (l.find? fun x => x.1 == n).map fun x => x.2 with
    | some f =>
      match f.value with
      | .obj r => some r
      | .other => none
    | none => none
  | none =>
    match man.registries with
    | some l => defaultRegistryScan (l.map fun x => x.2)
    | none => none

/-- A recursive `add_package` invocation as made by `add_dependencies`:
the workspace directory, the package spec to download, the optional
registry name, the `dependency` flag and the inherited credentials. -/
structure InstallCall where
  pkgDir : String
  packageSpec : String
  registry : Option String
  dependency : Bool
  username : Option String
  password : Option String
deriving DecidableEq

/-- The outcome of one local function invocation made by the remote
runner (`SFunc::call`); the caller discards it. -/
inductive CallRes where
  | ok
  | err (msg : String)
deriving DecidableEq

/-- An observable action performed by one of the CLI operations, in the
order the Rust code performs them. -/
inductive Act where
  | printMsg (msg : String)
  | printErrMsg (msg : String)
  | getReq (url : String) (auth : Option (String × String))
  | unzipPkg (pkg : String)
  | recurse (call : InstallCall)
  | createZip (dir : String)
  | putReq (url : String) (auth : Option (String × String)) (body : List Nat)
  | putReport (url : String) (text : String)
  | putSendError (msg : String)
  | removeFile (path : String)
  | deleteReq (url : String) (auth : Option (String × String))
  | deleteReport (url : String) (text : String)
  | callLocal (fn : String) (args : List String) (result : CallRes)
deriving DecidableEq

/-- The result of running an operation: either the list (or value) it
produces, or a panic raised by an `.unwrap()` in the source, carrying
the actions already performed before the panic. -/
inductive Res (α : Type) where
  | panicked (msg : String) (done : List Act)
  | ok (a : α)
deriving DecidableEq

/-- The actions performed by a spawned task whose panic is caught by the
`JoinSet` (a panicked task loses its remaining actions but keeps the
ones already performed). -/
def resActions : Res (List Act) → List Act
  | .ok l => l
  | .panicked _ done => done

/-- A value of the added package's `dependencies` array: a bare string,
an object (with optional `name` and `registry` fields), or another
value which the loop in `add_dependencies` skips. -/
inductive DepVal where
  | str (s : String)
  | obj (name : Option String) (registry : Option String)
  | other
deriving DecidableEq

/-- The value of the `root.dependencies` field: an array or some other
value (only arrays are iterated by `add_dependencies`). -/
inductive DepsFieldVal where
  | arr (vals : List DepVal)
  | nonArr
deriving DecidableEq

/-- The part of the just-installed package's manifest consumed by
`add_dependencies`. -/
structure DepsManifest where
  dependencies : Option DepsFieldVal
deriving DecidableEq

/-- `add_dependencies` (src/add.rs lines 118-146) as the list of
recursive `add_package` calls it makes, in declaration order: a string
entry installs with no explicit registry, an object entry with a `name`
field passes its `registry` field through when present (and is skipped
entirely when it has no `name`), every call carrying `dependency = true`
and the caller's credentials. -/
def addDependencies (addedMan : Option DepsManifest) (pkgDir : String)
    (username password : Option String) : List InstallCall :=
  match addedMan with
  | none => []
  | some m =>
    match m.dependencies with
    | some (.arr vals) =>
      vals.filterMap fun v =>
        match v with
        | .str s => some ⟨pkgDir, s, none, true, username, password⟩
        | .obj (some n) (some r) => some ⟨pkgDir, n, some r, true, username, password⟩
        | .obj (some n) none => some ⟨pkgDir, n, none, true, username, password⟩
        | .obj none _ => none
        | .other => none
    | _ => []

/-- The result of the download GET in `add_package`: a transport error,
or a response with a success flag and a body (`none` when
`response.bytes()` fails). -/
inductive HttpGetResult where
  | transportError (msg : String)
  | response (success : Bool) (body : Option (List Nat))
deriving DecidableEq

/-- `add_package` (src/add.rs lines 32-114) as the list of actions it
performs: load the manifest, resolve the registry, build the download
URL from the registry url and the `@`-stripped package spec, issue the
GET with Basic-Auth exactly when both credentials are present, and on a
successful response unzip the archive and make the recursive dependency
installs before printing the added message.  The recursive calls are
recorded as `recurse` actions (each is awaited in turn by the source). -/
def addPackage (man : Option AddManifest) (pkgDir downloadPkg : String)
    (registry : Option String) (dependency : Bool)
    (username password : Option String) (resp : HttpGetResult)
    (addedMan : Option DepsManifest) : List Act :=
  match man with
  | none => [.printMsg "add package error: pkg.stof file not found"]
  | some m =>
    match resolveRegistry m registry with
    | none => [.printMsg "add package error: registry not found"]
    | some reg =>
      match reg.url with
      | none => [.printMsg "add package error: registry URL not found"]
      | some regUrl =>
        let url := regUrl ++ "/registry/" ++ stripAt downloadPkg
        Act.getReq url (basicAuth username password) ::
        match resp with
        | .transportError _ => [.printMsg "add send error"]
        | .response success body =>
          if success then
            match body with
            | some _ =>
              Act.unzipPkg downloadPkg ::
              (addDependencies addedMan pkgDir username password).map .recurse ++
              [if dependency then .printMsg "added dependency" else .printMsg "added"]
            | none => [.printMsg "publish send error: could not parse response into bytes"]
          else [.printMsg "publish send error: does not exist or not authenticated"]

/-- The default-registry scan restricted to the registry-typed entries,
as a recursion over (registry, default-tag) pairs. -/
def scanPairs : Option RegInfo → List (RegInfo × Bool) → Option RegInfo
  | reg, [] => reg
  | none, (r, _) :: rest => scanPairs (some r) rest
  | some r0, (r, d) :: rest =>
    if d then scanPairs (some r) rest else scanPairs (some r0) rest

theorem find_append {α : Type} (p : α → Bool) (l₁ l₂ : List α) :
    (l₁ ++ l₂).find? p =
      match l₁.find? p with
      | some x => some x
      | none => l₂.find? p := by
  induction l₁ with
  | nil => simp
  | cons a l ih =>
    by_cases h : p a
    · simp [List.find?_cons_of_pos, h]
    · simpa [List.find?_cons_of_neg, h] using ih

theorem scanPairs_eq_objs (fields : List RegField) :
    ∀ reg, defaultRegistryScanAux reg fields = scanPairs reg (objsOf fields) := by
  induction fields with
  | nil => intro reg; cases reg <;> simp [defaultRegistryScanAux, objsOf, scanPairs]
  | cons f rest ih =>
    intro reg
    obtain ⟨v, d⟩ := f
    cases v with
    | obj r =>
      have hobjs : objsOf (⟨RegFieldVal.obj r, d⟩ :: rest) = (r, d) :: objsOf rest := by
        simp [objsOf]
      rw [hobjs]
      cases reg with
      | none => simpa [defaultRegistryScanAux, scanPairs] using ih (some r)
      | some r0 =>
        by_cases hd : d
        · simpa [defaultRegistryScanAux, scanPairs, hd] using ih (some r)
        · simpa [defaultRegistryScanAux, scanPairs, hd] using ih (some r0)
    | other =>
      have hobjs : objsOf (⟨RegFieldVal.other, d⟩ :: rest) = objsOf rest := by
        simp [objsOf]
      rw [hobjs]
      simpa [defaultRegistryScanAux] using ih reg

theorem scanPairs_some (r : RegInfo) (l : List (RegInfo × Bool)) :
    scanPairs (some r) l =
      match l.reverse.find? fun x => x.2 with
      | some x => some x.1
      | none => some r := by
  induction l generalizing r with
  | nil => simp [scanPairs]
  | cons a rest ih =>
    obtain ⟨r2, d⟩ := a
    by_cases hd : d
    · rw [show scanPairs (some r) ((r2, d) :: rest) = scanPairs (some r2) rest by
        simp [scanPairs, hd]]
      rw [ih r2]
      rw [List.reverse_cons, find_append]
      cases hfind : rest.reverse.find? fun x => x.2 with
      | some x => rfl
      | none => simp [List.find?_cons_of_pos, hd]
    · rw [show scanPairs (some r) ((r2, d) :: rest) = scanPairs (some r) rest by
        simp [scanPairs, hd]]
      rw [ih r]
      rw [List.reverse_cons, find_append]
      cases hfind : rest.reverse.find? fun x => x.2 with
      | some x => rfl
      | none => simp [List.find?_cons_of_neg, hd]

theorem scanPairs_none (l : List (RegInfo × Bool)) :
    scanPairs none l =
      match l.reverse.find? fun x => x.2 with
      | some x => some x.1
      | none => l.head?.map fun x => x.1 := by
  cases l with
  | nil => simp [scanPairs]
  | cons a rest =>
    obtain ⟨r2, d⟩ := a
    rw [show scanPairs none ((r2, d) :: rest) = scanPairs (some r2) rest from rfl]
    rw [scanPairs_some]
    rw [List.reverse_cons, find_append]
    cases hfind : rest.reverse.find? fun x => x.2 with
    | some x => rfl
    | none =>
      by_cases hd : d
      · simp [List.find?_cons_of_pos, hd]
      · simp [List.find?_cons_of_neg, hd]

theorem defaultRegistryScan_eq (fields : List RegField) :
    defaultRegistryScan fields =
      match ((objsOf fields).reverse.find? fun x => x.2) with
      | some x => some x.1
      | none => (objsOf fields).head?.map fun x => x.1 := by
  rw [defaultRegistryScan, scanPairs_eq_objs, scanPairs_none]

/-- C1: with no registry name given, the scan over the manifest's
registries collection returns, among the registry-typed entries in
declaration order, the last one tagged `default` when any is tagged, and
otherwise the first one; with no registry-typed entries it returns
not-found.  In particular for registries a, b, c in order: none tagged
gives a, b tagged gives b, b and c tagged gives c. -/
theorem default_registry_selection_correct :
    (∀ fields : List RegField,
      defaultRegistryScan fields =
        match ((objsOf fields).reverse.find? fun x => x.2) with
        | some x => some x.1
        | none => (objsOf fields).head?.map fun x => x.1) ∧
    (defaultRegistryScan
        [⟨.obj ⟨some "https://a"⟩, false⟩, ⟨.obj ⟨some "https://b"⟩, false⟩,
         ⟨.obj ⟨some "https://c"⟩, false⟩] = some ⟨some "https://a"⟩) ∧
    (defaultRegistryScan
        [⟨.obj ⟨some "https://a"⟩, false⟩, ⟨.obj ⟨some "https://b"⟩, true⟩,
         ⟨.obj ⟨some "https://c"⟩, false⟩] = some ⟨some "https://b"⟩) ∧
    (defaultRegistryScan
        [⟨.obj ⟨some "https://a"⟩, false⟩, ⟨.obj ⟨some "https://b"⟩, true⟩,
         ⟨.obj ⟨some "https://c"⟩, true⟩] = some ⟨some "https://c"⟩) ∧
    (defaultRegistryScan [] = none) := by
  refine ⟨defaultRegistryScan_eq, by decide, by decide, by decide, by decide⟩

/-- A registry object referenced from the manifest's `publish` array,
with its optional `url` field. -/
structure PubReg where
  url : Option String
deriving DecidableEq

/-- A value of the `root.publish` array: an object (a registry
reference) or another value, which the collection loop skips. -/
inductive PubVal where
  | obj (r : PubReg)
  | other
deriving DecidableEq

/-- The value of the `root.publish` field: an array or some other value
(only arrays are iterated). -/
inductive PubFieldVal where
  | arr (vals : List PubVal)
  | nonArr
deriving DecidableEq

/-- The part of a `pkg.stof` manifest consumed by `publish_package` and
`unpublish_package`: the `root.name` field (as a string, `none` when
absent) and the `root.publish` field. -/
structure PubManifest where
  name : Option String
  publish : Option PubFieldVal
deriving DecidableEq

/-- The stripped package path computed by `publish_package`: empty until
the `root.name` field is found, then the name with leading `@` removed. -/
def pkgPathOf (man : PubManifest) : String :=
  match man.name with
  | some n => stripAt n
  | none => ""

/-- The registries collected from `root.publish`: the object-typed
entries of the array, in order.  The source reads the publish field only
inside the branch where the `root.name` field was found. -/
def collectPublishRegs (man : PubManifest) : List PubReg :=
  match man.name with
  | none => []
  | some _ =>
    match man.publish with
    | some (.arr vals) =>
      vals.filterMap fun v =>
        match v with
        | .obj r => some r
        | .other => none
    | _ => []

/-- The outcome of one PUT in `publish_to_registry`: a transport error,
or a response whose body text is `some` when `resp.text()` decodes and
`none` when it does not (the source calls `.unwrap()` on it). -/
inductive PutResponse where
  | transportError (msg : String)
  | response (text : Option String)
deriving DecidableEq

/-- `publish_to_registry` (src/publish.rs lines 219-251) as one spawned
task's actions: read the registry's `url` field (empty string when
absent), and when both the archive bytes and the url are non-empty issue
the PUT — with no Authorization header and the bytes as body — then
report the response text, a missing url or empty archive printing an
error instead.  `resp.text().await.unwrap()` panics the task when the
body does not decode as text. -/
def publishToRegistry (bytes : List Nat) (reg : PubReg) (publishPath : String)
    (resp : PutResponse) : Res (List Act) :=
  let url := reg.url.getD ""
  if 0 < bytes.length ∧ 0 < url.length then
    let fullUrl := url ++ "/registry/" ++ publishPath
    match resp with
    | .transportError _ => .ok [.putReq fullUrl none bytes, .putSendError "publish send error"]
    | .response (some text) => .ok [.putReq fullUrl none bytes, .putReport fullUrl text]
    | .response none => .panicked "response text unwrap failed" [.putReq fullUrl none bytes]
  else
    .ok [.printMsg "publish error: registry URL not found, or package has a size of 0 bytes"]

/-- The publish fan-out: one `publish_to_registry` task per collected
registry, the i-th task paired with the i-th response of the oracle list
(a missing slot behaves as a transport error).  The `JoinSet` loop in
the source awaits every task and discards its result, so a task panic is
swallowed: only the actions it performed before panicking remain. -/
def publishTasks (bytes : List Nat) (publishPath : String) :
    List PubReg → List PutResponse → List Act
  | [], _ => []
  | r :: rest, resps =>
    resActions (publishToRegistry bytes r publishPath
        (resps.headD (.transportError "no response"))) ++
      publishTasks bytes publishPath rest resps.tail

/-- `publish_package` (src/publish.rs lines 164-215) as the actions it
performs: load the manifest, collect the stripped name and the publish
registries, abort with an error when either is empty; otherwise build
the temporary archive, read it back, fan the uploads out, and — whether
or not the read succeeded and whatever the individual uploads did —
remove the temporary file and print the overall success message. -/
def publishPackage (dir : String) (man : Option PubManifest)
    (zipResult : Option String) (readResult : Option (List Nat))
    (resps : List PutResponse) : Res (List Act) :=
  match man with
  | none => .ok [.printMsg "publish error: pkg.stof file not found"]
  | some m =>
    let path := pkgPathOf m
    let regs := collectPublishRegs m
    if regs.length < 1 ∨ path.length < 1 then
      .ok [.printMsg "publish error: not a valid name or didn't find any registries to publish to"]
    else
      match zipResult with
      | none => .ok [.createZip dir, .printMsg "publish error: failed to zip package directory"]
      | some zipPath =>
        match readResult with
        | some bytes =>
          .ok (Act.createZip dir :: publishTasks bytes path regs resps ++
            [.removeFile zipPath, .printMsg "publish success"])
        | none =>
          .ok [.createZip dir, .removeFile zipPath, .printMsg "publish success"]

/-- The outcome of one DELETE in `unpublish_package`: a transport error,
or a response whose body text is `some` when `response.text()` decodes
and `none` when it does not (the source calls `.unwrap()` on it, on the
main task). -/
inductive DeleteResponse where
  | transportError (msg : String)
  | response (text : Option String)
deriving DecidableEq

/-- Prefix a result's action list with already-performed actions. -/
def seqActions (pre : List Act) : Res (List Act) → Res (List Act)
  | .ok l => .ok (pre ++ l)
  | .panicked m done => .panicked m (pre ++ done)

/-- The sequential DELETE loop of `unpublish_package` (src/publish.rs
lines 288-302): a registry without a `url` field is silently skipped;
otherwise the DELETE is issued — with no Authorization header — and its
response text reported, a transport error printing an error message.
`response.text().await.unwrap()` runs on the main task, so a
non-decodable body panics the whole operation, dropping the remaining
registries.  The i-th registry with a url consumes the i-th oracle
response (a missing slot behaves as a transport error). -/
def unpublishTasks (publishPath : String) :
    List PubReg → List DeleteResponse → Res (List Act)
  | [], _ => .ok []
  | r :: rest, resps =>
    match r.url with
    | none => unpublishTasks publishPath rest resps
    | some u =>
      let fullUrl := u ++ "/registry/" ++ publishPath
      match resps.headD (.transportError "no response") with
      | .transportError _ =>
        seqActions [.deleteReq fullUrl none, .printMsg "unpublish send error"]
          (unpublishTasks publishPath rest resps.tail)
      | .response (some text) =>
        seqActions [.deleteReq fullUrl none, .deleteReport fullUrl text]
          (unpublishTasks publishPath rest resps.tail)
      | .response none =>
        .panicked "response text unwrap failed" [.deleteReq fullUrl none]

/-- `unpublish_package` (src/publish.rs lines 255-307) as the actions it
performs: the same manifest preconditions as publish, then the
sequential DELETE loop, then — regardless of how many deletes failed or
were skipped — the overall success message. -/
def unpublishPackage (man : Option PubManifest) (resps : List DeleteResponse) :
    Res (List Act) :=
  match man with
  | none => .ok [.printMsg "unpublish error: pkg.stof file not found"]
  | some m =>
    let path := pkgPathOf m
    let regs := collectPublishRegs m
    if regs.length < 1 ∨ path.length < 1 then
      .ok [.printMsg "unpublish error: not a valid name or didn't find any registries to unpublish from"]
    else
      match unpublishTasks path regs resps with
      | .ok l => .ok (l ++ [.printMsg "successfully removed package from all registries"])
      | .panicked m d => .panicked m d

/-- The outcome of the `fs::exists` call in `create_pkg_zip`: the
boolean, or the error case on which the source calls `.unwrap()`. -/
inductive FsExistsResult where
  | ok (b : Bool)
  | err
deriving DecidableEq

/-- `create_pkg_zip` (src/publish.rs lines 25-94) reduced to its control
flow: when the manifest loads, append `.pkg` to the output path when
missing, query `fs::exists` — whose error case panics through
`.unwrap()` — return `none` without overwriting when the file exists and
overwrite is off, and otherwise produce the archive (its path given by
the zip oracle). -/
def createPkgZip (manLoaded : Bool) (outPath : String) (overwrite : Bool)
    (fsExists : FsExistsResult) (zipResult : Option String) : Res (Option String) :=
  if manLoaded then
    let path := if outPath.endsWith ".pkg" then outPath else outPath ++ ".pkg"
    match fsExists with
    | .err => .panicked "fs exists unwrap failed" []
    | .ok ex =>
      if ex ∧ ¬overwrite then .ok none
      else
        let _ := path
        .ok zipResult
  else .ok none

/-- A top-level function of the decoded response document's main scope,
with whether its attribute map contains the key `local`. -/
structure RFunc where
  name : String
  hasLocalAttr : Bool
deriving DecidableEq

/-- The slice of the decoded response document the runner consumes: the
functions of the main root (`none` when the graph has no main root) and
the `text` field. -/
structure RDoc where
  mainRoot : Option (List RFunc)
  textField : Option String
deriving DecidableEq

/-- The result of `doc.header_import` on the response body. -/
inductive ImportResult where
  | ok (doc : RDoc)
  | err (msg : String)
deriving DecidableEq

/-- The response's Content-Type header: absent (the source defaults to
"bstof"), present but not ASCII-decodable (the source calls
`to_str().unwrap()` on it), or a decoded value. -/
inductive HeaderVal where
  | missing
  | undecodable
  | value (s : String)
deriving DecidableEq

/-- Prefix test on character lists. -/
def charsStartWith : List Char → List Char → Bool
  | _, [] => true
  | [], _ :: _ => false
  | c :: s, p :: ps => c == p && charsStartWith s ps

/-- Infix test on character lists. -/
def charsHaveInfix : List Char → List Char → Bool
  | [], pat => pat.isEmpty
  | c :: rest, pat => charsStartWith (c :: rest) pat || charsHaveInfix rest pat

/-- Substring test used for `content_type.contains("text")`. -/
def strContains (s pat : String) : Bool :=
  charsHaveInfix s.data pat.data

/-- The `to_call` collection loop of the remote runner: keep exactly the
functions whose attributes contain `local`. -/
def collectLocalFuncs : List RFunc → List RFunc
  | [] => []
  | f :: rest =>
    if f.hasLocalAttr then f :: collectLocalFuncs rest
    else collectLocalFuncs rest

/-- The invocation loop of the remote runner: call each collected
function with no arguments, recording and discarding the result
(`let _ = SFunc::call(..)`). -/
def runLocalCalls (oracle : String → CallRes) : List RFunc → List Act
  | [] => []
  | f :: rest => Act.callLocal f.name [] (oracle f.name) :: runLocalCalls oracle rest

/-- The textual-response check of the remote runner: when the content
type contains "text" and the document has a `text` field, print it. -/
def remoteTextActions (contentType : String) (doc : RDoc) : List Act :=
  if strContains contentType "text" then
    match doc.textField with
    | some t => [.printMsg t]
    | none => []
  else []

/-- The response-handling tail shared by `remote_exec` and
`remote_exec_doc` (src/remote.rs lines 72-116 and 142-182): decode the
Content-Type header — absent defaults to "bstof", a non-ASCII value
panics through `to_str().unwrap()` — silently do nothing when
`response.bytes()` fails, report import errors, and on a decoded
document print a textual `text` field and then invoke every main-root
function tagged `local` with no arguments, discarding each result. -/
def remoteHandleResponse (ctype : HeaderVal) (bytesOk : Bool)
    (importResult : ImportResult) (oracle : String → CallRes) : Res (List Act) :=
  match ctype with
  | .undecodable => .panicked "content-type to_str unwrap failed" []
  | _ =>
    let ct := match ctype with
      | .value s => s
      | _ => "bstof"
    if bytesOk then
      match importResult with
      | .err m => .ok [.printErrMsg ("remote exec error bad response: " ++ m)]
      | .ok doc =>
        let callActs := match doc.mainRoot with
          | none => []
          | some funcs => runLocalCalls oracle (collectLocalFuncs funcs)
        .ok (remoteTextActions ct doc ++ callActs)
    else .ok []

/-- The permission bits of a remote user record. -/
inductive Perm where
  | read
  | write
  | delete
  | exec
deriving DecidableEq

/-- The body of the `set_remote_user` POST (the source serializes these
four fields as a textual key:value payload). -/
structure AdminPayload where
  username : String
  password : String
  perms : Int
  scope : String
deriving DecidableEq

/-- An admin request as built by `set_remote_user` /
`remove_remote_user`: method, url, admin Basic-Auth credentials,
content type, and payload. -/
structure AdminRequest where
  method : String
  url : String
  auth : String × String
  contentType : String
  payload : AdminPayload
deriving DecidableEq

/-- `set_remote_user` (src/remote.rs lines 193-206): POST to
`<address>/admin/users` with the admin Basic-Auth header, content type
`application/stof`, and the username/password/perms/scope payload. -/
def setRemoteUser (address adminUser adminPass user pass : String)
    (perms : Int) (scope : String) : AdminRequest :=
  { method := "POST"
    url := address ++ "/admin/users"
    auth := (adminUser, adminPass)
    contentType := "application/stof"
    payload := ⟨user, pass, perms, scope⟩ }

/-- The `SetRemoteUser` command handler in `main` (src/main.rs lines
300-309): permissions default to `0b1001` (9) and the scope to the
empty string when not given on the command line. -/
def mainSetRemoteUser (server adminUser adminPass username password : String)
    (perms : Option Int) (scope : Option String) : AdminRequest :=
  setRemoteUser server adminUser adminPass username password
    (perms.getD 9) (scope.getD "")

/-- Modelled from the spec: the 4-bit permission scheme
read = 1, write = 2, delete = 4, exec = 8 under which the server
interprets the `perms` integer.  The decode itself lives in the remote
server, which is not part of this repository; src/main.rs documents the
scheme ("0b1001 -> exec, delete, write, read") and src/remote.rs sends
the raw integer. -/
def permsDecode (n : Nat) : List Perm :=
  (if n.testBit 0 then [Perm.read] else []) ++
  (if n.testBit 1 then [Perm.write] else []) ++
  (if n.testBit 2 then [Perm.delete] else []) ++
  (if n.testBit 3 then [Perm.exec] else [])

/-- A dependency entry that fits the data model: a bare name string, or
an object that does carry a `name` field. -/
def depWellFormed : DepVal → Prop
  | .str _ => True
  | .obj n _ => n.isSome = true
  | .other => False

theorem addDeps_wf_map (pkgDir : String) (u p : Option String) :
    ∀ vals : List DepVal,
      (∀ v ∈ vals, depWellFormed v) →
      (vals.filterMap fun v =>
        match v with
        | DepVal.str s => some (⟨pkgDir, s, none, true, u, p⟩ : InstallCall)
        | DepVal.obj (some n) (some r) => some ⟨pkgDir, n, some r, true, u, p⟩
        | DepVal.obj (some n) none => some ⟨pkgDir, n, none, true, u, p⟩
        | DepVal.obj none _ => none
        | DepVal.other => none) =
      vals.map fun v =>
        match v with
        | DepVal.str s => (⟨pkgDir, s, none, true, u, p⟩ : InstallCall)
        | DepVal.obj n r => ⟨pkgDir, n.getD "", r, true, u, p⟩
        | DepVal.other => ⟨pkgDir, "", none, true, u, p⟩ := by
  intro vals
  induction vals with
  | nil => intro _; simp
  | cons v rest ih =>
    intro hwf
    have hv := hwf v (List.mem_cons_self _ _)
    have hrest := fun x hx => hwf x (List.mem_cons_of_mem _ hx)
    rw [List.filterMap_cons, List.map_cons]
    cases v with
    | str s => simpa using ih hrest
    | obj n r =>
      cases n with
      | none => exact absurd hv (by simp [depWellFormed])
      | some nn =>
        cases r with
        | none => simpa using ih hrest
        | some rr => simpa using ih hrest
    | other => exact absurd hv (by simp [depWellFormed])

/-- C3: after a successful install, the dependency recursion visits the
just-installed package's `dependencies` sequence in declaration order
and makes one fully-awaited recursive install call per entry — a bare
string with no explicit registry, an object passing its `registry`
field through when present — each call marked transitive and inheriting
the caller's credentials.  Sequential awaiting in the source is
reflected here by the ordered call list: each recursive call completes
before the next list element is visited. -/
theorem dependencies_installed_in_order :
    ∀ (pkgDir : String) (u p : Option String) (vals : List DepVal) (m : DepsManifest),
      m.dependencies = some (.arr vals) →
      (∀ v ∈ vals, depWellFormed v) →
      addDependencies (some m) pkgDir u p =
        vals.map fun v =>
          match v with
          | DepVal.str s => (⟨pkgDir, s, none, true, u, p⟩ : InstallCall)
          | DepVal.obj n r => ⟨pkgDir, n.getD "", r, true, u, p⟩
          | DepVal.other => ⟨pkgDir, "", none, true, u, p⟩ := by
  intro pkgDir u p vals m hdep hwf
  simp only [addDependencies, hdep]
  exact addDeps_wf_map pkgDir u p vals hwf

/-- Witness for C3 at a concrete dependency list: a bare string, an
object with an explicit registry, and an object with none. -/
theorem dependencies_installed_in_order_witness :
    addDependencies (some ⟨some (.arr
        [.str "@acme/base", .obj (some "@x/y") (some "alt"), .obj (some "@z/w") none])⟩)
      "." (some "user") (some "pass") =
      [⟨".", "@acme/base", none, true, some "user", some "pass"⟩,
       ⟨".", "@x/y", some "alt", true, some "user", some "pass"⟩,
       ⟨".", "@z/w", none, true, some "user", some "pass"⟩] := by
  have h := dependencies_installed_in_order "." (some "user") (some "pass")
    [.str "@acme/base", .obj (some "@x/y") (some "alt"), .obj (some "@z/w") none]
    ⟨some (.arr [.str "@acme/base", .obj (some "@x/y") (some "alt"),
      .obj (some "@z/w") none])⟩ rfl (by intro v hv; fin_cases hv <;> simp [depWellFormed])
  rw [h]
  decide

/-- C2: whenever an install invocation reaches the download step — the
manifest loaded, the registry resolved and its url present — the GET it
issues targets `<url>/registry/<spec with leading @ stripped>`, and it
carries a Basic-Auth header exactly when both a username and a password
were supplied. -/
theorem download_request_url_and_auth :
    ∀ (m : AddManifest) (pkgDir dl : String) (reg : Option String) (dep : Bool)
      (u p : Option String) (resp : HttpGetResult) (addedMan : Option DepsManifest)
      (r : RegInfo) (ru : String),
      resolveRegistry m reg = some r → r.url = some ru →
      (addPackage (some m) pkgDir dl reg dep u p resp addedMan).head? =
        some (Act.getReq (ru ++ "/registry/" ++ stripAt dl) (basicAuth u p)) ∧
      ((basicAuth u p).isSome ↔ u.isSome ∧ p.isSome) := by
  intro m pkgDir dl reg dep u p resp addedMan r ru hres hurl
  refine ⟨?_, ?_⟩
  · simp only [addPackage, hres, hurl, List.head?_cons]
  · cases u <;> cases p <;> simp [basicAuth]

/-- Witness for C2 at a concrete manifest with a single default
registry and both credentials supplied. -/
theorem download_request_url_and_auth_witness :
    (addPackage
        (some ⟨some [("main", ⟨.obj ⟨some "https://reg.example.com"⟩, true⟩)]⟩)
        "." "@acme/base" none false (some "user") (some "pass")
        (.response true (some [1])) none).head? =
      some (Act.getReq ("https://reg.example.com" ++ "/registry/" ++ stripAt "@acme/base")
        (basicAuth (some "user") (some "pass"))) ∧
    ((basicAuth (some "user") (some "pass")).isSome ↔
      (some "user").isSome ∧ (some "pass").isSome) :=
  download_request_url_and_auth
    ⟨some [("main", ⟨.obj ⟨some "https://reg.example.com"⟩, true⟩)]⟩
    "." "@acme/base" none false (some "user") (some "pass")
    (.response true (some [1])) none ⟨some "https://reg.example.com"⟩
    "https://reg.example.com" (by decide) rfl

/-- C4: a publish invocation whose manifest misses its name, has an
empty name, misses its publish list or has an empty one aborts with the
invalid-manifest error as its only action: no archive is built, no file
is read or removed, and no network request is issued. -/
theorem publish_invalid_manifest_aborts_early :
    ∀ (dir : String) (m : PubManifest) (zr : Option String)
      (rr : Option (List Nat)) (resps : List PutResponse),
      (m.name = none ∨ m.name = some "" ∨ m.publish = none ∨
        m.publish = some (.arr [])) →
      publishPackage dir (some m) zr rr resps =
        .ok [.printMsg "publish error: not a valid name or didn't find any registries to publish to"] := by
  intro dir m zr rr resps h
  have hcond : (collectPublishRegs m).length < 1 ∨ (pkgPathOf m).length < 1 := by
    rcases h with h | h | h | h
    · right; simp [pkgPathOf, h]
    · right
      simp only [pkgPathOf, h]
      decide
    · left; cases hn : m.name <;> simp [collectPublishRegs, hn, h]
    · left; cases hn : m.name <;> simp [collectPublishRegs, hn, h]
  simp only [publishPackage]
  rw [if_pos hcond]

/-- Witness for C4 at a manifest with a publish list but no name. -/
theorem publish_invalid_manifest_aborts_early_witness :
    publishPackage "." (some ⟨none, some (.arr [.obj ⟨some "https://reg.example.com"⟩])⟩)
        (some "/tmp/x.pkg") (some [1]) [] =
      .ok [.printMsg "publish error: not a valid name or didn't find any registries to publish to"] :=
  publish_invalid_manifest_aborts_early "."
    ⟨none, some (.arr [.obj ⟨some "https://reg.example.com"⟩])⟩
    (some "/tmp/x.pkg") (some [1]) [] (Or.inl rfl)

/-- Selector for PUT request actions. -/
def isPut : Act → Bool
  | .putReq _ _ _ => true
  | _ => false

/-- Selector for the per-registry publish report prints: the response
text report, or the transport-error report. -/
def isPutReport : Act → Bool
  | .putReport _ _ => true
  | .putSendError _ => true
  | _ => false

/-- A PUT outcome whose report does not die in the task: a transport
error, or a response whose body decodes as text. -/
def putRespDelivered : PutResponse → Prop
  | .transportError _ => True
  | .response t => t.isSome = true

theorem publishTasks_puts (bytes : List Nat) (path : String)
    (hbytes : 0 < bytes.length) :
    ∀ (regs : List PubReg) (resps : List PutResponse),
      (∀ r ∈ regs, 0 < (r.url.getD "").length) →
      (∀ x ∈ resps, putRespDelivered x) →
      (publishTasks bytes path regs resps).filter isPut =
        regs.map (fun r => Act.putReq ((r.url.getD "") ++ "/registry/" ++ path) none bytes) ∧
      ((publishTasks bytes path regs resps).filter isPutReport).length = regs.length := by
  intro regs
  induction regs with
  | nil => intro resps _ _; simp [publishTasks]
  | cons r rest ih =>
    intro resps hurl hresp
    have hu : 0 < (r.url.getD "").length := hurl r (List.mem_cons_self _ _)
    have hurlrest := fun x hx => hurl x (List.mem_cons_of_mem _ hx)
    have hresptail : ∀ x ∈ resps.tail, putRespDelivered x := by
      intro x hx
      exact hresp x (List.mem_of_mem_tail hx)
    obtain ⟨ih1, ih2⟩ := ih resps.tail hurlrest hresptail
    have hhead : putRespDelivered (resps.headD (.transportError "no response")) := by
      cases resps with
      | nil => simp [putRespDelivered]
      | cons x rs => exact hresp x (List.mem_cons_self _ _)
    rw [show publishTasks bytes path (r :: rest) resps =
      resActions (publishToRegistry bytes r path
          (resps.headD (.transportError "no response"))) ++
        publishTasks bytes path rest resps.tail from rfl]
    cases hr : resps.headD (.transportError "no response") with
    | transportError msg =>
      rw [show publishToRegistry bytes r path (.transportError msg) =
        .ok [.putReq ((r.url.getD "") ++ "/registry/" ++ path) none bytes,
             .putSendError "publish send error"] by
          simp only [publishToRegistry]
          rw [if_pos ⟨hbytes, hu⟩]]
      constructor
      · simp [resActions, List.filter_append, isPut, ih1]
      · simp [resActions, List.filter_append, isPut, isPutReport, ih2]
    | response t =>
      rw [hr] at hhead
      cases t with
      | none => exact absurd hhead (by simp [putRespDelivered])
      | some text =>
        rw [show publishToRegistry bytes r path (.response (some text)) =
          .ok [.putReq ((r.url.getD "") ++ "/registry/" ++ path) none bytes,
               .putReport ((r.url.getD "") ++ "/registry/" ++ path) text] by
            simp only [publishToRegistry]
            rw [if_pos ⟨hbytes, hu⟩]]
        constructor
        · simp [resActions, List.filter_append, isPut, ih1]
        · simp [resActions, List.filter_append, isPut, isPutReport, ih2]

/-- C5: a publish invocation that reaches the upload step — non-empty
archive bytes and a non-empty url on every publish registry — issues
exactly one PUT per registry of the publish list, at
`<url>/registry/<strippedName>` with the archive bytes as body, all
tasks are awaited before the final success message, and every registry
is individually reported whatever the other registries' outcomes: the
responses oracle is arbitrary, so one transport error or non-success
body changes neither the other PUTs nor the other reports. -/
theorem publish_fanout_puts_all_registries :
    ∀ (dir zp : String) (m : PubManifest) (bytes : List Nat)
      (resps : List PutResponse),
      ¬((collectPublishRegs m).length < 1 ∨ (pkgPathOf m).length < 1) →
      0 < bytes.length →
      (∀ r ∈ collectPublishRegs m, 0 < (r.url.getD "").length) →
      (∀ x ∈ resps, putRespDelivered x) →
      publishPackage dir (some m) (some zp) (some bytes) resps =
        .ok (Act.createZip dir ::
          publishTasks bytes (pkgPathOf m) (collectPublishRegs m) resps ++
          [.removeFile zp, .printMsg "publish success"]) ∧
      (publishTasks bytes (pkgPathOf m) (collectPublishRegs m) resps).filter isPut =
        (collectPublishRegs m).map
          (fun r => Act.putReq ((r.url.getD "") ++ "/registry/" ++ pkgPathOf m) none bytes) ∧
      ((publishTasks bytes (pkgPathOf m) (collectPublishRegs m) resps).filter isPutReport).length =
        (collectPublishRegs m).length := by
  intro dir zp m bytes resps hpre hbytes hurl hresp
  obtain ⟨h1, h2⟩ := publishTasks_puts bytes (pkgPathOf m) hbytes
    (collectPublishRegs m) resps hurl hresp
  refine ⟨?_, h1, h2⟩
  simp only [publishPackage]
  rw [if_neg hpre]

/-- Witness for C5: three registries, the second answering with an HTTP
500 body — all three PUTs are issued and all three are reported. -/
theorem publish_fanout_puts_all_registries_witness :
    publishPackage "." (some ⟨some "@acme/tool",
        some (.arr [.obj ⟨some "https://r1"⟩, .obj ⟨some "https://r2"⟩,
                    .obj ⟨some "https://r3"⟩])⟩)
      (some "/tmp/t.pkg") (some [1, 2])
      [.response (some "ok"), .response (some "500 Internal Server Error"),
       .response (some "ok")] =
      .ok (Act.createZip "." ::
        publishTasks [1, 2] (pkgPathOf ⟨some "@acme/tool",
            some (.arr [.obj ⟨some "https://r1"⟩, .obj ⟨some "https://r2"⟩,
                        .obj ⟨some "https://r3"⟩])⟩)
          (collectPublishRegs ⟨some "@acme/tool",
            some (.arr [.obj ⟨some "https://r1"⟩, .obj ⟨some "https://r2"⟩,
                        .obj ⟨some "https://r3"⟩])⟩)
          [.response (some "ok"), .response (some "500 Internal Server Error"),
           .response (some "ok")] ++
        [.removeFile "/tmp/t.pkg", .printMsg "publish success"]) ∧
    (publishTasks [1, 2] (pkgPathOf ⟨some "@acme/tool",
        some (.arr [.obj ⟨some "https://r1"⟩, .obj ⟨some "https://r2"⟩,
                    .obj ⟨some "https://r3"⟩])⟩)
      (collectPublishRegs ⟨some "@acme/tool",
        some (.arr [.obj ⟨some "https://r1"⟩, .obj ⟨some "https://r2"⟩,
                    .obj ⟨some "https://r3"⟩])⟩)
      [.response (some "ok"), .response (some "500 Internal Server Error"),
       .response (some "ok")]).filter isPut =
      (collectPublishRegs ⟨some "@acme/tool",
        some (.arr [.obj ⟨some "https://r1"⟩, .obj ⟨some "https://r2"⟩,
                    .obj ⟨some "https://r3"⟩])⟩).map
        (fun r => Act.putReq ((r.url.getD "") ++ "/registry/" ++
          pkgPathOf ⟨some "@acme/tool",
            some (.arr [.obj ⟨some "https://r1"⟩, .obj ⟨some "https://r2"⟩,
                        .obj ⟨some "https://r3"⟩])⟩) none [1, 2]) ∧
    ((publishTasks [1, 2] (pkgPathOf ⟨some "@acme/tool",
        some (.arr [.obj ⟨some "https://r1"⟩, .obj ⟨some "https://r2"⟩,
                    .obj ⟨some "https://r3"⟩])⟩)
      (collectPublishRegs ⟨some "@acme/tool",
        some (.arr [.obj ⟨some "https://r1"⟩, .obj ⟨some "https://r2"⟩,
                    .obj ⟨some "https://r3"⟩])⟩)
      [.response (some "ok"), .response (some "500 Internal Server Error"),
       .response (some "ok")]).filter isPutReport).length =
      (collectPublishRegs ⟨some "@acme/tool",
        some (.arr [.obj ⟨some "https://r1"⟩, .obj ⟨some "https://r2"⟩,
                    .obj ⟨some "https://r3"⟩])⟩).length :=
  publish_fanout_puts_all_registries "." "/tmp/t.pkg"
    ⟨some "@acme/tool",
      some (.arr [.obj ⟨some "https://r1"⟩, .obj ⟨some "https://r2"⟩,
                  .obj ⟨some "https://r3"⟩])⟩
    [1, 2]
    [.response (some "ok"), .response (some "500 Internal Server Error"),
     .response (some "ok")]
    (by decide) (by decide) (by decide)
    (by intro x hx; fin_cases hx <;> simp [putRespDelivered])

/-- C6: evaluating the code at a concrete publish and unpublish of
`@acme/tool` against the registry `https://reg.example.com` shows that
the PUT and the DELETE both go out with no Authorization header: the
publish/unpublish path of src/publish.rs never attaches credentials
(its functions do not even receive the username and password that
src/main.rs passes). -/
theorem publish_unpublish_requests_have_no_auth_header :
    publishToRegistry [7] ⟨some "https://reg.example.com"⟩ "acme/tool"
        (.response (some "ok")) =
      .ok [.putReq "https://reg.example.com/registry/acme/tool" none [7],
           .putReport "https://reg.example.com/registry/acme/tool" "ok"] ∧
    unpublishPackage
        (some ⟨some "@acme/tool", some (.arr [.obj ⟨some "https://reg.example.com"⟩])⟩)
        [.response (some "ok")] =
      .ok [.deleteReq "https://reg.example.com/registry/acme/tool" none,
           .deleteReport "https://reg.example.com/registry/acme/tool" "ok",
           .printMsg "successfully removed package from all registries"] := by
  constructor
  · decide
  · decide

/-- A DELETE outcome whose body decodes as text (so the `.unwrap()` in
`unpublish_package` does not fire), or a transport error. -/
def delRespDelivered : DeleteResponse → Prop
  | .transportError _ => True
  | .response t => t.isSome = true

theorem unpublishTasks_ok (path : String) :
    ∀ (regs : List PubReg) (resps : List DeleteResponse),
      (∀ x ∈ resps, delRespDelivered x) →
      ∃ l, unpublishTasks path regs resps = .ok l := by
  intro regs
  induction regs with
  | nil => intro resps _; exact ⟨[], rfl⟩
  | cons r rest ih =>
    intro resps hresp
    have htail : ∀ x ∈ resps.tail, delRespDelivered x := by
      intro x hx
      exact hresp x (List.mem_of_mem_tail hx)
    have hhead : delRespDelivered (resps.headD (.transportError "no response")) := by
      cases resps with
      | nil => simp [delRespDelivered]
      | cons x rs => exact hresp x (List.mem_cons_self _ _)
    cases hu : r.url with
    | none =>
      obtain ⟨l, hl⟩ := ih resps hresp
      exact ⟨l, by rw [show unpublishTasks path (r :: rest) resps =
        unpublishTasks path rest resps by simp only [unpublishTasks, hu], hl]⟩
    | some u =>
      obtain ⟨l, hl⟩ := ih resps.tail htail
      cases hr : resps.headD (.transportError "no response") with
      | transportError msg =>
        refine ⟨[.deleteReq (u ++ "/registry/" ++ path) none,
          .printMsg "unpublish send error"] ++ l, ?_⟩
        simp only [unpublishTasks, hu, hr]
        rw [hl]
        rfl
      | response t =>
        rw [hr] at hhead
        cases t with
        | none => exact absurd hhead (by simp [delRespDelivered])
        | some text =>
          refine ⟨[.deleteReq (u ++ "/registry/" ++ path) none,
            .deleteReport (u ++ "/registry/" ++ path) text] ++ l, ?_⟩
          simp only [unpublishTasks, hu, hr]
          rw [hl]
          rfl

/-- C8 counterexample: `unpublish_package` calls
`response.text().await.unwrap()` on the main task, so one registry
response whose body is not decodable as text panics the process — the
claim that every operation handles every transport outcome without
panicking is false as stated. -/
theorem unpublish_panics_on_undecodable_body :
    unpublishPackage
        (some ⟨some "@acme/tool", some (.arr [.obj ⟨some "https://reg.example.com"⟩])⟩)
        [.response none] =
      .panicked "response text unwrap failed"
        [.deleteReq "https://reg.example.com/registry/acme/tool" none] := by
  decide

/-- C8 as amended: the operations return without panicking the process
for every transport outcome except the carved-out unwraps — publish
always completes (a per-registry task that panics on a non-decodable
response body is caught by the JoinSet), unpublish completes provided
every response body decodes as text, pkg-zip creation completes
provided the file-existence query does not error, and remote-response
handling completes provided the response Content-Type header is
ASCII-decodable. -/
theorem operations_no_panic_under_decodable_io :
    (∀ (dir : String) (man : Option PubManifest) (zr : Option String)
        (rr : Option (List Nat)) (resps : List PutResponse),
      ∃ acts, publishPackage dir man zr rr resps = .ok acts) ∧
    (∀ (man : Option PubManifest) (resps : List DeleteResponse),
      (∀ x ∈ resps, delRespDelivered x) →
      ∃ acts, unpublishPackage man resps = .ok acts) ∧
    (∀ (ml : Bool) (op : String) (ow : Bool) (fe : FsExistsResult)
        (zr : Option String),
      fe ≠ .err → ∃ v, createPkgZip ml op ow fe zr = .ok v) ∧
    (∀ (ct : HeaderVal) (bo : Bool) (ir : ImportResult)
        (oracle : String → CallRes),
      ct ≠ .undecodable → ∃ acts, remoteHandleResponse ct bo ir oracle = .ok acts) := by
  refine ⟨?_, ?_, ?_, ?_⟩
  · intro dir man zr rr resps
    cases man with
    | none => exact ⟨_, rfl⟩
    | some m =>
      simp only [publishPackage]
      by_cases h : (collectPublishRegs m).length < 1 ∨ (pkgPathOf m).length < 1
      · rw [if_pos h]; exact ⟨_, rfl⟩
      · rw [if_neg h]
        cases zr with
        | none => exact ⟨_, rfl⟩
        | some zp =>
          cases rr with
          | none => exact ⟨_, rfl⟩
          | some bytes => exact ⟨_, rfl⟩
  · intro man resps hresp
    cases man with
    | none => exact ⟨_, rfl⟩
    | some m =>
      simp only [unpublishPackage]
      by_cases h : (collectPublishRegs m).length < 1 ∨ (pkgPathOf m).length < 1
      · rw [if_pos h]; exact ⟨_, rfl⟩
      · rw [if_neg h]
        obtain ⟨l, hl⟩ := unpublishTasks_ok (pkgPathOf m) (collectPublishRegs m) resps hresp
        rw [hl]
        exact ⟨_, rfl⟩
  · intro ml op ow fe zr hfe
    cases fe with
    | err => exact absurd rfl hfe
    | ok ex =>
      simp only [createPkgZip]
      by_cases hml : ml
      · simp only [hml, if_pos]
        by_cases hex : ex ∧ ¬ow
        · rw [if_pos hex]; exact ⟨_, rfl⟩
        · rw [if_neg hex]; exact ⟨_, rfl⟩
      · simp only [hml]
        exact ⟨_, rfl⟩
  · intro ct bo ir oracle hct
    cases ct with
    | undecodable => exact absurd rfl hct
    | missing =>
      simp only [remoteHandleResponse]
      cases bo with
      | false => exact ⟨_, rfl⟩
      | true =>
        cases ir with
        | err m => exact ⟨_, rfl⟩
        | ok doc => exact ⟨_, rfl⟩
    | value s =>
      simp only [remoteHandleResponse]
      cases bo with
      | false => exact ⟨_, rfl⟩
      | true =>
        cases ir with
        | err m => exact ⟨_, rfl⟩
        | ok doc => exact ⟨_, rfl⟩

/-- Witness for the amended C8 at concrete inputs discharging each
hypothesis: an unpublish whose responses decode, a pkg-zip creation
whose existence query succeeds, and a remote response with a decodable
content type. -/
theorem operations_no_panic_under_decodable_io_witness :
    (∃ acts, publishPackage "." (some ⟨some "@acme/tool",
        some (.arr [.obj ⟨some "https://r1"⟩])⟩) (some "/tmp/t.pkg") none [] = .ok acts) ∧
    (∃ acts, unpublishPackage (some ⟨some "@acme/tool",
        some (.arr [.obj ⟨some "https://r1"⟩])⟩) [.transportError "connection refused"] = .ok acts) ∧
    (∃ v, createPkgZip true "out" true (.ok false) (some "out.pkg") = .ok v) ∧
    (∃ acts, remoteHandleResponse .missing true (.err "bad body") (fun _ => .ok) = .ok acts) :=
  ⟨operations_no_panic_under_decodable_io.1 "." _ _ _ _,
   operations_no_panic_under_decodable_io.2.1 _ _
     (by intro x hx; fin_cases hx; simp [delRespDelivered]),
   operations_no_panic_under_decodable_io.2.2.1 _ _ _ _ _ (by decide),
   operations_no_panic_under_decodable_io.2.2.2 _ _ _ _ (by decide)⟩

/-- C10: once the manifest preconditions pass and the temporary archive
is created, publish always ends with the overall success message — even
when reading the archive back fails, in which case no PUT at all is
issued, and whatever the individual uploads did — and unpublish always
ends with its overall success message after the DELETE loop, however
many deletes failed or were skipped; the overall status messages do not
reflect per-registry outcomes. -/
theorem overall_success_message_unconditional :
    (∀ (dir zp : String) (m : PubManifest) (resps : List PutResponse),
      ¬((collectPublishRegs m).length < 1 ∨ (pkgPathOf m).length < 1) →
      publishPackage dir (some m) (some zp) none resps =
        .ok [.createZip dir, .removeFile zp, .printMsg "publish success"]) ∧
    (∀ (dir zp : String) (m : PubManifest) (bytes : List Nat)
        (resps : List PutResponse),
      ¬((collectPublishRegs m).length < 1 ∨ (pkgPathOf m).length < 1) →
      publishPackage dir (some m) (some zp) (some bytes) resps =
        .ok (Act.createZip dir ::
          publishTasks bytes (pkgPathOf m) (collectPublishRegs m) resps ++
          [.removeFile zp, .printMsg "publish success"])) ∧
    (∀ (m : PubManifest) (resps : List DeleteResponse),
      ¬((collectPublishRegs m).length < 1 ∨ (pkgPathOf m).length < 1) →
      (∀ x ∈ resps, delRespDelivered x) →
      ∃ acts, unpublishPackage (some m) resps =
        .ok (acts ++ [.printMsg "successfully removed package from all registries"])) := by
  refine ⟨?_, ?_, ?_⟩
  · intro dir zp m resps hpre
    simp only [publishPackage]
    rw [if_neg hpre]
  · intro dir zp m bytes resps hpre
    simp only [publishPackage]
    rw [if_neg hpre]
  · intro m resps hpre hresp
    obtain ⟨l, hl⟩ := unpublishTasks_ok (pkgPathOf m) (collectPublishRegs m) resps hresp
    refine ⟨l, ?_⟩
    simp only [unpublishPackage]
    rw [if_neg hpre, hl]

/-- Witness for C10: one registry; the archive read fails for publish,
and the single DELETE fails with a transport error for unpublish — both
operations still end with the overall success message. -/
theorem overall_success_message_unconditional_witness :
    (publishPackage "." (some ⟨some "@acme/tool",
        some (.arr [.obj ⟨some "https://r1"⟩])⟩) (some "/tmp/t.pkg") none [] =
      .ok [.createZip ".", .removeFile "/tmp/t.pkg", .printMsg "publish success"]) ∧
    (∃ acts, unpublishPackage (some ⟨some "@acme/tool",
        some (.arr [.obj ⟨some "https://r1"⟩])⟩) [.transportError "timeout"] =
      .ok (acts ++ [.printMsg "successfully removed package from all registries"])) :=
  ⟨overall_success_message_unconditional.1 "." "/tmp/t.pkg" _ [] (by decide),
   overall_success_message_unconditional.2.2 _ _ (by decide)
     (by intro x hx; fin_cases hx; simp [delRespDelivered])⟩

theorem collectLocalFuncs_eq_filter :
    ∀ l : List RFunc, collectLocalFuncs l = l.filter fun f => f.hasLocalAttr := by
  intro l
  induction l with
  | nil => rfl
  | cons f rest ih =>
    by_cases h : f.hasLocalAttr
    · simp [collectLocalFuncs, h, List.filter_cons, ih]
    · simp [collectLocalFuncs, h, List.filter_cons, ih]

theorem runLocalCalls_eq_map (oracle : String → CallRes) :
    ∀ l : List RFunc,
      runLocalCalls oracle l = l.map fun f => Act.callLocal f.name [] (oracle f.name) := by
  intro l
  induction l with
  | nil => rfl
  | cons f rest ih => simp [runLocalCalls, ih]

/-- C7: when the remote-run response body decodes into a document with
a main scope, the runner invokes exactly the top-level functions tagged
`local`, each with no arguments and in order; the result of each
invocation is recorded and discarded, so the trace — and the fact that
the handler returns normally — is the same for every outcome oracle: a
failing invocation neither aborts the remaining ones nor propagates. -/
theorem remote_local_functions_invoked :
    ∀ (ct : HeaderVal) (ir : ImportResult) (oracle : String → CallRes)
      (doc : RDoc) (funcs : List RFunc),
      ct ≠ .undecodable → ir = .ok doc → doc.mainRoot = some funcs →
      remoteHandleResponse ct true ir oracle =
        .ok (remoteTextActions
            (match ct with
             | .value s => s
             | _ => "bstof") doc ++
          (funcs.filter fun f => f.hasLocalAttr).map fun f =>
            Act.callLocal f.name [] (oracle f.name)) := by
  intro ct ir oracle doc funcs hct hir hroot
  subst hir
  cases ct with
  | undecodable => exact absurd rfl hct
  | missing =>
    simp only [remoteHandleResponse, hroot, collectLocalFuncs_eq_filter,
      runLocalCalls_eq_map]
    simp
  | value s =>
    simp only [remoteHandleResponse, hroot, collectLocalFuncs_eq_filter,
      runLocalCalls_eq_map]
    simp

/-- Witness for C7: three top-level functions, two tagged local, with an
oracle on which the first local invocation fails — both local functions
are still invoked, with no arguments, and the handler returns normally. -/
theorem remote_local_functions_invoked_witness :
    remoteHandleResponse (.value "bstof") true
        (.ok ⟨some [⟨"f1", true⟩, ⟨"f2", false⟩, ⟨"g", true⟩], none⟩)
        (fun s => if s == "f1" then .err "boom" else .ok) =
      .ok (remoteTextActions "bstof" ⟨some [⟨"f1", true⟩, ⟨"f2", false⟩, ⟨"g", true⟩], none⟩ ++
        (([⟨"f1", true⟩, ⟨"f2", false⟩, ⟨"g", true⟩] : List RFunc).filter
            fun f => f.hasLocalAttr).map
          fun f => Act.callLocal f.name []
            (if f.name == "f1" then CallRes.err "boom" else CallRes.ok)) :=
  remote_local_functions_invoked (.value "bstof")
    (.ok ⟨some [⟨"f1", true⟩, ⟨"f2", false⟩, ⟨"g", true⟩], none⟩)
    (fun s => if s == "f1" then .err "boom" else .ok)
    ⟨some [⟨"f1", true⟩, ⟨"f2", false⟩, ⟨"g", true⟩], none⟩
    [⟨"f1", true⟩, ⟨"f2", false⟩, ⟨"g", true⟩]
    (by decide) rfl rfl

/-- C9: the `SetRemoteUser` handler sends permissions value 9 when the
caller gives none, and under the 4-bit scheme read=1, write=2, delete=4,
exec=8 the value 9 decomposes to exactly read and exec, 15 to all four,
and 0 to the empty set. -/
theorem set_remote_user_default_perms_and_bitmask :
    (∀ server adminUser adminPass username password scope,
      (mainSetRemoteUser server adminUser adminPass username password
          none scope).payload.perms = 9) ∧
    permsDecode 9 = [Perm.read, Perm.exec] ∧
    permsDecode 15 = [Perm.read, Perm.write, Perm.delete, Perm.exec] ∧
    permsDecode 0 = [] := by
  refine ⟨fun _ _ _ _ _ _ => rfl, by decide, by decide, by decide⟩

end Stof
